import Mathlib

/-!
Verification of the Visual-Product-Matcher core services
(`backend/services/search_service.py`, `backend/services/embedding_service.py`)
against their natural-language specification.

The Python services are shallowly embedded: JSON values are an inductive
type, Python floats are modelled as real numbers (exact arithmetic), the
module-level globals `_products` / `_embeddings_matrix` become an explicit
`SearchState` passed through `load_catalog` and `search_similar`, and
Python exceptions become `Except` values.
-/

set_option autoImplicit false

namespace VPM

/-- A parsed JSON value, as produced by `json.load`.  Numbers are kept as
exact rationals (JSON literals are decimal). -/
inductive JVal : Type where
  | jnull : JVal
  | jbool (b : Bool) : JVal
  | jnum (q : ℚ) : JVal
  | jstr (s : String) : JVal
  | jarr (xs : List JVal) : JVal
  | jobj (fields : List (String × JVal)) : JVal

/-- `d.get(k)` on a parsed JSON object: `none` when the key is absent
(concrete inputs in this file never repeat a key). -/
def jget (r : JVal) (k : String) : Option JVal :=
  match r with
  | .jobj fields => fields.lookup k
  | _ => none

/-- Python exceptions that the bodies of `load_catalog` can raise before
being re-wrapped in `SearchError`. -/
inductive PyErr : Type where
  | keyErr (k : String) : PyErr
  | valueErr : PyErr
  | typeErr : PyErr
  | attrErr : PyErr
  deriving DecidableEq

/-- The two `SearchError` shapes raised by `load_catalog`
(`"Invalid JSON in catalog file"` / `"Failed to load catalog: {e}"`). -/
inductive LoadErr : Type where
  | invalidJson : LoadErr
  | failedLoad (e : PyErr) : LoadErr
  deriving DecidableEq

/-- The dict built for each kept record (search_service.py lines 57-66);
field values are whatever JSON value the raw record carried. -/
structure Product : Type where
  id : JVal
  name : JVal
  category : JVal
  brand : JVal
  price : JVal
  description : JVal
  image : JVal
  thumbnail : JVal

def defaultProduct : Product :=
  ⟨.jnull, .jnull, .jnull, .jnull, .jnull, .jnull, .jnull, .jnull⟩

/-- The module-level globals of search_service.py: `_products` and
`_embeddings_matrix` (the matrix rows are real vectors; `none` models the
Python `None`). -/
structure SearchState : Type where
  products : List Product
  matrix : Option (List (List ℝ))

/-- The truthiness test guarding record inclusion
(`embedding and isinstance(embedding, list) and len(embedding) > 0`):
it passes exactly for a non-empty JSON array. -/
def keepTest (r : JVal) : Bool :=
  match jget r "embedding" with
  | some (.jarr (_ :: _)) => true
  | _ => false

/-- `np.array(embedding, dtype=np.float32)` on a JSON array: succeeds only
when every element is a number (a non-numeric element raises `ValueError`;
nested arrays are outside the scope of the inputs considered here). -/
def toFloats : List JVal → Option (List ℚ)
  | [] => some []
  | .jnum q :: rest =>
    match toFloats rest with
    | some qs => some (q :: qs)
    | none => none
  | _ => none

/-- One iteration of the load loop (search_service.py lines 54-69):
`.ok none` means the record was skipped with a warning, `.ok (some _)`
means it was appended to both `valid_products` and `valid_embeddings`,
`.error` is a raised exception.  Field accesses follow the source order:
the `valid_products.append({...})` dict literal (`id` and `name` by
`product[...]`, the rest by `product.get(...)` with defaults) and then
`np.array(embedding, dtype=np.float32)`. -/
def procRecord (product : JVal) : Except PyErr (Option (Product × List ℚ)) :=
  match product with
  | .jobj _ =>
    match jget product "embedding" with
    | some (.jarr es) =>
      if es.isEmpty then .ok none
      else
        match jget product "id" with
        | none => .error (.keyErr "id")
        | some idv =>
          match jget product "name" with
          | none => .error (.keyErr "name")
          | some namev =>
            match toFloats es with
            | none => .error .valueErr
            | some nums =>
              .ok (some
                ({ id := idv
                   name := namev
                   category := (jget product "category").getD (.jstr "unknown")
                   brand := (jget product "brand").getD (.jstr "")
                   price := (jget product "price").getD (.jnum 0)
                   description := (jget product "description").getD (.jstr "")
                   image := (jget product "image").getD (.jstr "")
                   thumbnail := (jget product "thumbnail").getD (.jstr "") },
                 nums))
    | _ => .ok none
  | _ => .error .attrErr

/-- The whole load loop: processes records left to right, accumulating the
kept products and their raw embeddings in lockstep; the first raised
exception aborts the loop. -/
def processAll : List JVal → Except PyErr (List Product × List (List ℚ))
  | [] => .ok ([], [])
  | p :: rest =>
    match procRecord p with
    | .error e => .error e
    | .ok none => processAll rest
    | .ok (some (prod, emb)) =>
      match processAll rest with
      | .error e => .error e
      | .ok (ps, es) => .ok (prod :: ps, emb :: es)

/-- `for product in raw_products`: iterating a JSON array yields its
elements; iterating an object yields its key strings (each then fails
attribute lookup inside the loop body, modelled by `procRecord` on a
string); iterating a string yields its one-character strings; iterating a
number, boolean or null raises `TypeError`. -/
def iterRecords : JVal → Except PyErr (List JVal)
  | .jarr xs => .ok xs
  | .jobj fields => .ok (fields.map fun kv => .jstr kv.1)
  | .jstr s => .ok (s.toList.map fun c => .jstr (String.mk [c]))
  | _ => .error .typeErr

/-- Sum of squares of a real vector. -/
def sumSq (v : List ℝ) : ℝ :=
  (v.map fun x => x * x).sum

/-- `np.linalg.norm` on a 1-D vector: the Euclidean norm. -/
noncomputable def l2norm (v : List ℝ) : ℝ :=
  Real.sqrt (sumSq v)

/-- Row normalization in `load_catalog` (lines 76-78): a zero norm is
replaced by 1 before dividing (`norms[norms == 0] = 1`), so zero rows stay
zero. -/
noncomputable def normalizeRow (r : List ℚ) : List ℝ :=
  let rr : List ℝ := r.map fun q => (q : ℝ)
  let d : ℝ := if l2norm rr = 0 then 1 else l2norm rr
  rr.map fun x => x / d

/-- `np.stack(valid_embeddings)`: succeeds exactly when all rows have one
common length, raising `ValueError` otherwise. -/
def stackRows (rows : List (List ℚ)) : Option (List (List ℚ)) :=
  match rows with
  | [] => none
  | r :: rs =>
    match rs.all fun x => x.length = r.length with
    | true => some (r :: rs)
    | false => none

/-- `load_catalog` (search_service.py lines 26-85) over an explicit state.
`pathExists` models `catalog_path.exists()`; `content` is the result of
`json.load` (`.error` = `JSONDecodeError`).  Faithful to the source order:
the missing-path branch resets the store and returns; `_products` is
assigned (line 71) before `np.stack` runs (line 74), so a stack failure
leaves the new product list paired with the previous matrix; when no
record is kept the matrix is also left untouched. -/
noncomputable def load_catalog (st : SearchState) (pathExists : Bool)
    (content : Except Unit JVal) : SearchState × Except LoadErr Unit :=
  if pathExists = false then (⟨[], none⟩, .ok ())
  else
    match content with
    | .error _ => (st, .error .invalidJson)
    | .ok raw =>
      match iterRecords raw with
      | .error e => (st, .error (.failedLoad e))
      | .ok items =>
        match processAll items with
        | .error e => (st, .error (.failedLoad e))
        | .ok (prods, embs) =>
          if embs.isEmpty then ({ products := prods, matrix := st.matrix }, .ok ())
          else
            match stackRows embs with
            | none => ({ products := prods, matrix := st.matrix }, .error (.failedLoad .valueErr))
            | some rows => ({ products := prods, matrix := some (rows.map normalizeRow) }, .ok ())

/-- The shared zero-guarded normalization `if norm > 0: v = v / norm`
(search_service.py lines 113-116 for the query, embedding_service.py lines
176-179 for the generated embedding). -/
noncomputable def l2guard (v : List ℝ) : List ℝ :=
  if 0 < l2norm v then v.map fun x => x / l2norm v else v

/-- Dot product of two vectors (`row @ query` for one matrix row). -/
def dot (a b : List ℝ) : ℝ :=
  (List.zipWith (fun x y => x * y) a b).sum

/-- Banker's rounding to an integer, as Python's built-in `round`:
half-way values go to the even neighbour. -/
noncomputable def roundHalfEven (x : ℝ) : ℤ :=
  if Int.fract x = 1 / 2 then (if 2 ∣ ⌊x⌋ then ⌊x⌋ else ⌊x⌋ + 1) else round x

/-- Python's `round(x, 4)`. -/
noncomputable def pyRound4 (x : ℝ) : ℝ :=
  (roundHalfEven (x * 10000) : ℝ) / 10000

/-- Insert index `i` into an index list sorted by strictly decreasing
score, placing `i` after any index of equal score. -/
noncomputable def insertIdx (scores : List ℝ) (i : ℕ) : List ℕ → List ℕ
  | [] => [i]
  | j :: rest =>
    if scores.getD j 0 < scores.getD i 0 then i :: j :: rest
    else j :: insertIdx scores i rest

/-- Model of `np.argsort(-scores)`: the indices `0, …, n-1` ordered by
non-increasing score.  Ties are kept in index order here; numpy's default
quicksort gives that order for small arrays (they are insertion-sorted)
but does not promise it in general, so no theorem in this file relies on
the tie order beyond concrete small inputs. -/
noncomputable def argsortDesc (scores : List ℝ) : List ℕ :=
  (List.range scores.length).foldl (fun acc i => insertIdx scores i acc) []

/-- The result-building loop of `search_similar` (lines 124-135): walk the
indices in sorted order, stop at the first score below `min_score`
(strictly — an exact hit on the threshold is kept), append the product
with the score rounded to 4 decimals, and stop once `limit` results are
collected. -/
noncomputable def searchLoop (prods : List Product) (scores : List ℝ) (limit : ℕ)
    (minScore : ℝ) : List ℕ → List (Product × ℝ) → List (Product × ℝ)
  | [], acc => acc
  | idx :: rest, acc =>
    if scores.getD idx 0 < minScore then acc
    else
      let acc' := acc ++ [(prods.getD idx defaultProduct, pyRound4 (scores.getD idx 0))]
      if limit ≤ acc'.length then acc'
      else searchLoop prods scores limit minScore rest acc'

/-- The score array of `search_similar` (lines 112-122): normalize the
query with the zero guard, take the dot product with every matrix row, and
rescale from [-1, 1] to [0, 1] via `(s + 1) / 2`. -/
noncomputable def scoresOf (st : SearchState) (query : List ℝ) : List ℝ :=
  match st.matrix with
  | none => []
  | some m => m.map fun row => (dot row (l2guard query) + 1) / 2

/-- `search_similar` (search_service.py lines 88-137): empty result on an
empty catalog, otherwise the loop over `np.argsort`-ordered scores.  Each
result is the product dict paired with its `similarity_score` field. -/
noncomputable def search_similar (st : SearchState) (query : List ℝ) (limit : ℕ)
    (minScore : ℝ) : List (Product × ℝ) :=
  match st.matrix with
  | none => []
  | some _ =>
    if st.products.length = 0 then []
    else searchLoop st.products (scoresOf st query) limit minScore
      (argsortDesc (scoresOf st query)) []

/-- The dimensionality step of `generate_embedding`
(embedding_service.py lines 172-174): truncate to the first 512 elements
when longer; the source has no branch for shorter vectors. -/
def truncate512 (v : List ℝ) : List ℝ :=
  if 512 < v.length then v.take 512 else v

/-- `EmbeddingError`, raised when embedding generation fails. -/
inductive EmbeddingErr : Type where
  | embErr : EmbeddingErr
  deriving DecidableEq

/-- The postprocessing of `generate_embedding` applied to the flattened
float32 model output (embedding_service.py lines 170-181): truncate, then
the zero-guarded L2 normalization.  No statement in lines 170-181 can
raise, so given a model output vector the result is always `.ok`. -/
noncomputable def generate_embedding_post (raw : List ℝ) : Except EmbeddingErr (List ℝ) :=
  .ok (l2guard (truncate512 raw))

/-- An RGB pixel with rational samples in [0, 255]. -/
def RGB : Type := ℚ × ℚ × ℚ

/-- A decoded PIL image already converted to RGB: a width, a height, and a
pixel grid (`pix x y`). -/
structure PILImage : Type where
  w : ℕ
  h : ℕ
  pix : ℕ → ℕ → RGB

/-- A numeric array with an explicit dimension list. -/
structure Tensor : Type where
  dims : List ℕ
  val : ℕ → ℕ → ℕ → ℕ → ℚ

/-- `Image.resize((nw, nh), Image.BICUBIC)`: PIL returns an image of
exactly the requested size; the resampled pixel grid is supplied by the
`resample` parameter (the bicubic kernel lives inside PIL). -/
def resizeImg (resample : PILImage → ℕ → ℕ → ℕ → ℕ → RGB)
    (img : PILImage) (nw nh : ℕ) : PILImage :=
  ⟨nw, nh, resample img nw nh⟩

/-- `Image.crop((left, top, right, bottom))`: PIL returns an image whose
size is exactly the box size, filling out-of-bounds coordinates with
black. -/
def cropImg (img : PILImage) (left top right bottom : ℤ) : PILImage :=
  ⟨(right - left).toNat, (bottom - top).toNat,
   fun x y =>
     let sx : ℤ := left + (x : ℤ)
     let sy : ℤ := top + (y : ℤ)
     if 0 ≤ sx ∧ sx < (img.w : ℤ) ∧ 0 ≤ sy ∧ sy < (img.h : ℤ) then
       img.pix sx.toNat sy.toNat
     else ((0 : ℚ), (0 : ℚ), (0 : ℚ))⟩

/-- CLIP's per-channel mean (embedding_service.py line 33). -/
def imagenetMean : ℕ → ℚ
  | 0 => 0.48145466
  | 1 => 0.4578275
  | _ => 0.40821073

/-- CLIP's per-channel standard deviation (line 34). -/
def imagenetStd : ℕ → ℚ
  | 0 => 0.26862954
  | 1 => 0.26130258
  | _ => 0.27577711

/-- Channel selector on an RGB sample. -/
def chanOf : ℕ → RGB → ℚ
  | 0, p => p.1
  | 1, p => p.2.1
  | _, p => p.2.2

/-- Lines 121-129 of `_preprocess_image`: scale samples to [0, 1], apply
the ImageNet normalization, reorder height×width×channel to
channel×height×width and prepend a batch dimension, giving dimensions
(1, 3, h, w). -/
def toTensor (img : PILImage) : Tensor :=
  { dims := [1, 3, img.h, img.w]
    val := fun _ c y x => (chanOf c (img.pix x y) / 255 - imagenetMean c) / imagenetStd c }

/-- The resize target of `_preprocess_image` (lines 111-113):
`scale = 224 / min(w, h)` in exact arithmetic and
`(int(w * scale), int(h * scale))` (truncation = floor for non-negative
values). -/
def resizedDims (w h : ℕ) : ℕ × ℕ :=
  let scale : ℚ := 224 / (min w h : ℕ)
  ((⌊(w : ℚ) * scale⌋).toNat, (⌊(h : ℚ) * scale⌋).toNat)

/-- `_preprocess_image` (embedding_service.py lines 100-131) for an image
already in RGB mode: resize so the shorter side is 224, center-crop a
224×224 window with floor division for the offsets, then build the
normalized NCHW tensor.  Total: no input size is rejected. -/
def preprocess_image (resample : PILImage → ℕ → ℕ → ℕ → ℕ → RGB)
    (img : PILImage) : Tensor :=
  let nw := (resizedDims img.w img.h).1
  let nh := (resizedDims img.w img.h).2
  let resized := resizeImg resample img nw nh
  let left : ℤ := Int.fdiv ((nw : ℤ) - 224) 2
  let top : ℤ := Int.fdiv ((nh : ℤ) - 224) 2
  toTensor (cropImg resized left top (left + 224) (top + 224))

/-! ## Concrete inputs used in counterexamples and witnesses -/

/-- A product of an already-loaded (old) catalog generation. -/
def prodA : Product :=
  ⟨.jnum 0, .jstr "old", .jstr "unknown", .jstr "", .jnum 0, .jstr "", .jstr "", .jstr ""⟩

/-- An old catalog generation: one product, one unit matrix row. -/
def stA : SearchState :=
  ⟨[prodA], some [[(1 : ℝ)]]⟩

/-- The empty store created at process start. -/
def st0 : SearchState :=
  ⟨[], none⟩

/-- A well-formed record with a length-1 embedding. -/
def recB1 : JVal :=
  .jobj [("id", .jnum 1), ("name", .jstr "b1"), ("embedding", .jarr [.jnum 1])]

/-- A well-formed record with a length-2 embedding (length differs from
`recB1`, so stacking both fails). -/
def recB2 : JVal :=
  .jobj [("id", .jnum 2), ("name", .jstr "b2"), ("embedding", .jarr [.jnum 1, .jnum 2])]

/-- The product dict `load_catalog` builds from `recB1`. -/
def pB1 : Product :=
  ⟨.jnum 1, .jstr "b1", .jstr "unknown", .jstr "", .jnum 0, .jstr "", .jstr "", .jstr ""⟩

/-- The product dict `load_catalog` builds from `recB2`. -/
def pB2 : Product :=
  ⟨.jnum 2, .jstr "b2", .jstr "unknown", .jstr "", .jnum 0, .jstr "", .jstr "", .jstr ""⟩

/-- A fully well-formed record. -/
def recGood : JVal :=
  .jobj [("id", .jnum 1), ("name", .jstr "good"), ("embedding", .jarr [.jnum 1])]

/-- The product dict `load_catalog` builds from `recGood`. -/
def pGood : Product :=
  ⟨.jnum 1, .jstr "good", .jstr "unknown", .jstr "", .jnum 0, .jstr "", .jstr "", .jstr ""⟩

/-- A record with a valid non-empty embedding but no `id` field. -/
def recNoId : JVal :=
  .jobj [("embedding", .jarr [.jnum 1])]

/-- A record whose embedding is a non-empty list with a non-numeric
element (so it lacks a non-empty *numeric* embedding sequence). -/
def recBadNum : JVal :=
  .jobj [("id", .jnum 9), ("name", .jstr "x"), ("embedding", .jarr [.jstr "oops"])]

/-- A record with no embedding field at all (skipped with a warning). -/
def recNoEmb : JVal :=
  .jobj [("id", .jnum 7)]

/-- The product of the single-row catalog used for the threshold-equality
scenario. -/
def pIncl : Product :=
  ⟨.jnum 3, .jstr "incl", .jstr "unknown", .jstr "", .jnum 0, .jstr "", .jstr "", .jstr ""⟩

/-- A loaded catalog with one product whose matrix row is the unit vector
(1, 0): against the query (1, 0) its rescaled score is exactly 1. -/
def stIncl : SearchState :=
  ⟨[pIncl], some [[(1 : ℝ), 0]]⟩

/-- The product of the single-row catalog used for the rounding scenario. -/
def pC9 : Product :=
  ⟨.jnum 4, .jstr "round", .jstr "unknown", .jstr "", .jnum 0, .jstr "", .jstr "", .jstr ""⟩

/-- A loaded catalog with one row (-4707/6250, 0): against the query
(1, 0) the rescaled score is 0.12344, which rounds down to 0.1234. -/
noncomputable def stC9 : SearchState :=
  ⟨[pC9], some [[(-4707 / 6250 : ℝ), 0]]⟩

/-! ## Helper lemmas -/

theorem procRecord_some_keepTest (p : JVal) (pe : Product × List ℚ)
    (h : procRecord p = .ok (some pe)) : keepTest p = true := by
  cases p with
  | jobj fields =>
    unfold procRecord at h
    unfold keepTest
    cases hm : jget (.jobj fields) "embedding" with
    | none => simp [hm] at h
    | some v =>
      cases v with
      | jarr es =>
        cases es with
        | nil => simp [hm] at h
        | cons e es' => simp [hm]
      | jnull => simp [hm] at h
      | jbool b => simp [hm] at h
      | jnum q => simp [hm] at h
      | jstr s => simp [hm] at h
      | jobj f => simp [hm] at h
  | jnull => exact absurd h (by unfold procRecord; simp)
  | jbool b => exact absurd h (by unfold procRecord; simp)
  | jnum q => exact absurd h (by unfold procRecord; simp)
  | jstr s => exact absurd h (by unfold procRecord; simp)
  | jarr xs => exact absurd h (by unfold procRecord; simp)

theorem procRecord_none_keepTest (p : JVal) (h : procRecord p = .ok none) :
    keepTest p = false := by
  cases p with
  | jobj fields =>
    unfold procRecord at h
    unfold keepTest
    cases hm : jget (.jobj fields) "embedding" with
    | none => simp [hm]
    | some v =>
      cases v with
      | jarr es =>
        cases es with
        | nil => simp [hm]
        | cons e es' =>
          exfalso
          cases hid : jget (.jobj fields) "id" with
          | none => simp [hm, hid] at h
          | some idv =>
            cases hnm : jget (.jobj fields) "name" with
            | none => simp [hm, hid, hnm] at h
            | some nv =>
              cases htf : toFloats (e :: es') with
              | none => simp [hm, hid, hnm, htf] at h
              | some nums => simp [hm, hid, hnm, htf] at h
      | jnull => simp [hm]
      | jbool b => simp [hm]
      | jnum q => simp [hm]
      | jstr s => simp [hm]
      | jobj f => simp [hm]
  | jnull => exact absurd h (by unfold procRecord; simp)
  | jbool b => exact absurd h (by unfold procRecord; simp)
  | jnum q => exact absurd h (by unfold procRecord; simp)
  | jstr s => exact absurd h (by unfold procRecord; simp)
  | jarr xs => exact absurd h (by unfold procRecord; simp)

theorem processAll_count (items : List JVal) (prods : List Product)
    (embs : List (List ℚ)) (h : processAll items = .ok (prods, embs)) :
    prods.length = embs.length ∧
    prods.length = items.countP (fun r => keepTest r) := by
  induction items generalizing prods embs with
  | nil =>
    unfold processAll at h
    injection h with h'
    injection h' with h1 h2
    subst h1
    subst h2
    simp
  | cons p rest ih =>
    unfold processAll at h
    cases hpr : procRecord p with
    | error e => rw [hpr] at h; cases h
    | ok o =>
      rw [hpr] at h
      cases o with
      | none =>
        have hk : keepTest p = false := procRecord_none_keepTest p hpr
        have hih := ih prods embs h
        refine ⟨hih.1, ?_⟩
        have h2 := hih.2
        simp [List.countP_cons, hk]
        omega
      | some pe =>
        have hk : keepTest p = true := procRecord_some_keepTest p pe hpr
        obtain ⟨prod, emb⟩ := pe
        cases hrest : processAll rest with
        | error e => rw [hrest] at h; cases h
        | ok pr =>
          obtain ⟨ps, es⟩ := pr
          rw [hrest] at h
          injection h with h'
          injection h' with h1 h2
          subst h1
          subst h2
          have hih := ih ps es hrest
          have h1 := hih.1
          have h2 := hih.2
          refine ⟨by simpa using h1, ?_⟩
          simp [List.countP_cons, hk]
          omega

theorem processAll_append_error (xs : List JVal) (bad : JVal) (ps : List Product)
    (es : List (List ℚ)) (e : PyErr) (hxs : processAll xs = .ok (ps, es))
    (hbad : procRecord bad = .error e) :
    processAll (xs ++ [bad]) = .error e := by
  induction xs generalizing ps es with
  | nil =>
    rw [List.nil_append]
    unfold processAll
    rw [hbad]
  | cons p rest ih =>
    cases hpr : procRecord p with
    | error e' => simp [processAll, hpr] at hxs
    | ok o =>
      cases o with
      | none =>
        have hxs' : processAll rest = .ok (ps, es) := by
          simpa [processAll, hpr] using hxs
        simp only [List.cons_append, processAll, hpr, List.append_eq]
        exact ih ps es hxs'
      | some pe =>
        obtain ⟨prod, emb⟩ := pe
        cases hrest : processAll rest with
        | error e' => simp [processAll, hpr, hrest] at hxs
        | ok pr =>
          obtain ⟨ps', es'⟩ := pr
          have hih := ih ps' es' hrest
          simp only [List.cons_append, processAll, hpr, List.append_eq, hih]

theorem length_countP_split (items : List JVal) :
    items.length =
      items.countP (fun r => keepTest r) + items.countP (fun r => !keepTest r) := by
  induction items with
  | nil => rfl
  | cons p rest ih =>
    cases hk : keepTest p <;> simp [List.countP_cons, hk] <;> omega

theorem stackRows_some_eq (rows rows' : List (List ℚ))
    (h : stackRows rows = some rows') : rows' = rows := by
  cases rows with
  | nil => simp [stackRows] at h
  | cons r rs =>
    cases hb : (rs.all fun x => x.length = r.length) with
    | true =>
      simp only [stackRows, hb] at h
      exact (Option.some.inj h).symm
    | false => simp [stackRows, hb] at h

theorem sumSq_nonneg (v : List ℝ) : 0 ≤ sumSq v := by
  apply List.sum_nonneg
  intro x hx
  rcases List.mem_map.1 hx with ⟨y, _, rfl⟩
  exact mul_self_nonneg y

theorem sumSq_map_div (v : List ℝ) (c : ℝ) :
    sumSq (v.map fun x => x / c) = sumSq v / c ^ 2 := by
  induction v with
  | nil => simp [sumSq]
  | cons x xs ih =>
    simp only [List.map_cons, sumSq, List.sum_cons] at *
    rw [ih, div_mul_div_comm, (show c * c = c ^ 2 by ring), div_add_div_same]

theorem l2guard_length (v : List ℝ) : (l2guard v).length = v.length := by
  unfold l2guard
  split <;> simp

theorem truncate512_length (v : List ℝ) : (truncate512 v).length = min v.length 512 := by
  unfold truncate512
  split <;> rename_i h
  · simp
    omega
  · omega

theorem resize_side_bounds (m L : ℕ) (hm : 1 ≤ m) (hL : m ≤ L) :
    (⌊(m : ℚ) * (224 / (m : ℚ))⌋).toNat = 224 ∧
    224 ≤ (⌊(L : ℚ) * (224 / (m : ℚ))⌋).toNat := by
  have hm0 : ((m : ℚ)) ≠ 0 := Nat.cast_ne_zero.2 (by omega)
  have hexact : (m : ℚ) * (224 / (m : ℚ)) = 224 := by
    field_simp
  constructor
  · rw [hexact]
    have h224 : ⌊(224 : ℚ)⌋ = 224 := by norm_num
    rw [h224]
    rfl
  · have hle : (224 : ℚ) ≤ (L : ℚ) * (224 / (m : ℚ)) := by
      calc (224 : ℚ) = (m : ℚ) * (224 / (m : ℚ)) := hexact.symm
        _ ≤ (L : ℚ) * (224 / (m : ℚ)) := by
            apply mul_le_mul_of_nonneg_right
            · exact_mod_cast hL
            · positivity
    have hfloor : (224 : ℤ) ≤ ⌊(L : ℚ) * (224 / (m : ℚ))⌋ := by
      apply Int.le_floor.2
      exact_mod_cast hle
    omega

theorem resizedDims_min (w h : ℕ) (hw : 1 ≤ w) (hh : 1 ≤ h) :
    min (resizedDims w h).1 (resizedDims w h).2 = 224 := by
  rcases le_total w h with hle | hle
  · have hmin : min w h = w := min_eq_left hle
    have haux := resize_side_bounds w h hw hle
    simp only [resizedDims, hmin]
    rw [haux.1]
    exact min_eq_left haux.2
  · have hmin : min w h = h := min_eq_right hle
    have haux := resize_side_bounds h w hh hle
    simp only [resizedDims, hmin]
    rw [haux.1]
    exact min_eq_right haux.2

theorem roundHalfEven_eval (x : ℝ) (n : ℤ) (h1 : (n : ℝ) ≤ x)
    (h2 : x < n + 1 / 2) : roundHalfEven x = n := by
  have hfl : ⌊x⌋ = n := Int.floor_eq_iff.2 ⟨h1, by linarith⟩
  have hfr : Int.fract x < 1 / 2 := by
    have hdef : Int.fract x = x - ⌊x⌋ := rfl
    rw [hdef, hfl]
    linarith
  unfold roundHalfEven
  rw [if_neg (by intro hc; rw [hc] at hfr; linarith)]
  rw [round_eq]
  exact Int.floor_eq_iff.2 ⟨by linarith, by linarith⟩

theorem pyRound4_eval (x : ℝ) (n : ℤ) (h1 : (n : ℝ) ≤ x * 10000)
    (h2 : x * 10000 < n + 1 / 2) : pyRound4 x = n / 10000 := by
  unfold pyRound4
  rw [roundHalfEven_eval (x * 10000) n h1 h2]

theorem pyRound4_one : pyRound4 1 = 1 := by
  have h := pyRound4_eval 1 10000 (by norm_num) (by norm_num)
  rw [h]
  norm_num

theorem l2guard_of_sumSq_one (v : List ℝ) (h : sumSq v = 1) : l2guard v = v := by
  have h1 : l2norm v = 1 := by
    unfold l2norm
    rw [h, Real.sqrt_one]
  unfold l2guard
  rw [h1, if_pos one_pos]
  simp

theorem searchLoop_length (prods : List Product) (scores : List ℝ) (limit : ℕ)
    (ms : ℝ) (order : List ℕ) (acc : List (Product × ℝ)) (h : acc.length < limit) :
    (searchLoop prods scores limit ms order acc).length ≤ limit := by
  induction order generalizing acc with
  | nil =>
    simp only [searchLoop]
    omega
  | cons idx rest ih =>
    simp only [searchLoop]
    by_cases hlt : scores.getD idx 0 < ms
    · rw [if_pos hlt]
      omega
    · rw [if_neg hlt]
      by_cases hl : limit ≤
          (acc ++ [(prods.getD idx defaultProduct, pyRound4 (scores.getD idx 0))]).length
      · rw [if_pos hl]
        simp only [List.length_append, List.length_cons, List.length_nil]
        omega
      · rw [if_neg hl]
        apply ih
        simp only [List.length_append, List.length_cons, List.length_nil] at hl ⊢
        omega

theorem searchLoop_mem (prods : List Product) (scores : List ℝ) (limit : ℕ)
    (ms : ℝ) (order : List ℕ) (acc : List (Product × ℝ)) (r : Product × ℝ)
    (h : r ∈ searchLoop prods scores limit ms order acc) :
    r ∈ acc ∨ ∃ idx,
      r = (prods.getD idx defaultProduct, pyRound4 (scores.getD idx 0)) ∧
      ms ≤ scores.getD idx 0 := by
  induction order generalizing acc with
  | nil =>
    left
    simpa [searchLoop] using h
  | cons idx rest ih =>
    simp only [searchLoop] at h
    by_cases hlt : scores.getD idx 0 < ms
    · rw [if_pos hlt] at h
      exact Or.inl h
    · rw [if_neg hlt] at h
      have hms : ms ≤ scores.getD idx 0 := not_lt.1 hlt
      by_cases hl : limit ≤
          (acc ++ [(prods.getD idx defaultProduct, pyRound4 (scores.getD idx 0))]).length
      · rw [if_pos hl] at h
        rcases List.mem_append.1 h with hmem | hmem
        · exact Or.inl hmem
        · exact Or.inr ⟨idx, List.mem_singleton.1 hmem, hms⟩
      · rw [if_neg hl] at h
        rcases ih _ h with hacc | hex
        · rcases List.mem_append.1 hacc with hmem | hmem
          · exact Or.inl hmem
          · exact Or.inr ⟨idx, List.mem_singleton.1 hmem, hms⟩
        · exact Or.inr hex

theorem search_mem_shape (st : SearchState) (query : List ℝ) (limit : ℕ) (ms : ℝ)
    (r : Product × ℝ) (h : r ∈ search_similar st query limit ms) :
    ∃ idx, r = (st.products.getD idx defaultProduct,
      pyRound4 ((scoresOf st query).getD idx 0)) ∧
      ms ≤ (scoresOf st query).getD idx 0 := by
  cases hm : st.matrix with
  | none => simp [search_similar, hm] at h
  | some m =>
    simp only [search_similar, hm] at h
    by_cases hp : st.products.length = 0
    · rw [if_pos hp] at h
      simp at h
    · rw [if_neg hp] at h
      rcases searchLoop_mem _ _ _ _ _ _ _ h with hacc | hex
      · simp at hacc
      · exact hex

theorem search_single (p : Product) (row q : List ℝ) (limit : ℕ) (ms s : ℝ)
    (hq : l2guard q = q) (hs : (dot row q + 1) / 2 = s)
    (hms : ¬ s < ms) :
    search_similar ⟨[p], some [row]⟩ q limit ms = [(p, pyRound4 s)] := by
  have hscores : scoresOf ⟨[p], some [row]⟩ q = [s] := by
    simp only [scoresOf, hq, List.map_cons, List.map_nil, hs]
  have hsort : argsortDesc [s] = [0] := by
    have hr : List.range 1 = [0] := rfl
    simp [argsortDesc, insertIdx, hr]
  simp only [search_similar]
  rw [if_neg (by simp)]
  rw [hscores, hsort]
  simp only [searchLoop, List.getD_cons_zero, List.nil_append]
  rw [if_neg hms]
  split
  · rfl
  · simp only [searchLoop]

/-! ## Claim theorems -/

/-- C7: for every decoded RGB image with width ≥ 1 and height ≥ 1 and any
resampling kernel, the preprocessing pipeline returns a tensor of
dimensions exactly (1, 3, 224, 224), and the resize step makes the
shorter side exactly 224 — inputs smaller than 224 are upsampled, never
rejected (the function is total). -/
theorem preprocess_output_shape (resample : PILImage → ℕ → ℕ → ℕ → ℕ → RGB)
    (img : PILImage) (hw : 1 ≤ img.w) (hh : 1 ≤ img.h) :
    (preprocess_image resample img).dims = [1, 3, 224, 224] ∧
    min (resizedDims img.w img.h).1 (resizedDims img.w img.h).2 = 224 := by
  constructor
  · have e1 : ∀ a : ℤ, (a + 224 - a).toNat = 224 := by
      intro a
      omega
    simp only [preprocess_image, toTensor, cropImg, resizeImg, e1]
  · exact resizedDims_min img.w img.h hw hh

/-- C7 witness: a 50×50 image (shorter side below 224) still yields the
(1, 3, 224, 224) tensor and is upsampled to 224. -/
theorem preprocess_output_shape_witness :
    (preprocess_image (fun _ _ _ _ _ => ((0 : ℚ), 0, 0))
      ⟨50, 50, fun _ _ => ((0 : ℚ), 0, 0)⟩).dims = [1, 3, 224, 224] ∧
    min (resizedDims 50 50).1 (resizedDims 50 50).2 = 224 :=
  preprocess_output_shape (fun _ _ _ _ _ => ((0 : ℚ), 0, 0))
    ⟨50, 50, fun _ _ => ((0 : ℚ), 0, 0)⟩ (by norm_num) (by norm_num)

/-- C10: if the catalog file path does not exist, `load_catalog` raises no
error: it resets the store to the empty catalog (no products, no matrix)
and returns normally, discarding whatever generation was loaded before. -/
theorem load_catalog_missing_path_resets (st : SearchState) (content : Except Unit JVal) :
    load_catalog st false content = (⟨[], none⟩, .ok ()) := by
  simp [load_catalog]

/-- C8: the final normalization of `generate_embedding` is
division-guarded: a zero-norm vector is returned unmodified, and a
positive-norm vector has every element divided by the norm, making the
result's Euclidean norm exactly 1 (exact real arithmetic stands in for
"within floating-point tolerance"). -/
theorem l2guard_zero_or_unit (v : List ℝ) :
    (l2norm v = 0 → l2guard v = v) ∧
    (0 < l2norm v →
      l2guard v = v.map (fun x => x / l2norm v) ∧ l2norm (l2guard v) = 1) := by
  constructor
  · intro h
    unfold l2guard
    rw [h]
    simp
  · intro h
    have hmap : l2guard v = v.map fun x => x / l2norm v := by
      unfold l2guard
      rw [if_pos h]
    refine ⟨hmap, ?_⟩
    rw [hmap]
    have hsq : l2norm v ^ 2 = sumSq v := Real.sq_sqrt (sumSq_nonneg v)
    have hne : l2norm v ^ 2 ≠ 0 := pow_ne_zero 2 (ne_of_gt h)
    have hone : sumSq (v.map fun x => x / l2norm v) = 1 := by
      rw [sumSq_map_div, ← hsq, div_self hne]
    show Real.sqrt (sumSq (v.map fun x => x / l2norm v)) = 1
    rw [hone, Real.sqrt_one]

/-- C8 witness: the vector (3, 4) has positive norm and normalizes to a
unit vector. -/
theorem l2guard_zero_or_unit_witness :
    0 < l2norm [(3 : ℝ), 4] ∧ l2norm (l2guard [(3 : ℝ), 4]) = 1 := by
  have h25 : sumSq [(3 : ℝ), 4] = 25 := by
    simp [sumSq]
    norm_num
  have hpos : 0 < l2norm [(3 : ℝ), 4] := by
    unfold l2norm
    rw [h25]
    exact Real.sqrt_pos.2 (by norm_num)
  exact ⟨hpos, ((l2guard_zero_or_unit [(3 : ℝ), 4]).2 hpos).2⟩

/-- C2 counterexample: loading a catalog whose two records carry
embeddings of different lengths makes `np.stack` fail *after* `_products`
was already reassigned (line 71), so the failed load leaves the new
record list paired with the previous generation's matrix — a mixed state
observable by queries, refuting atomicity. -/
theorem load_mixed_state_counterexample :
    load_catalog stA true (.ok (.jarr [recB1, recB2])) =
      (⟨[pB1, pB2], stA.matrix⟩, .error (.failedLoad .valueErr)) ∧
    [pB1, pB2] ≠ stA.products := by
  constructor
  · rfl
  · simp [stA, pB1, pB2, prodA]

/-- C2 amended: a load failure during JSON parsing or record processing
leaves the previous generation wholly intact, but a failure while
stacking the embeddings happens after the record list has been replaced:
the store is then left with the new records and the old matrix. -/
theorem load_atomic_except_stack :
    (∀ st e, load_catalog st true (.error e) = (st, .error .invalidJson)) ∧
    (∀ st items err, processAll items = .error err →
      load_catalog st true (.ok (.jarr items)) = (st, .error (.failedLoad err))) ∧
    (∀ st items prods embs, processAll items = .ok (prods, embs) →
      stackRows embs = none → embs ≠ [] →
      load_catalog st true (.ok (.jarr items)) =
        ({ products := prods, matrix := st.matrix }, .error (.failedLoad .valueErr))) := by
  refine ⟨?_, ?_, ?_⟩
  · intro st e
    simp [load_catalog]
  · intro st items err h
    simp [load_catalog, iterRecords, h]
  · intro st items prods embs hp hs hne
    cases embs with
    | nil => exact absurd rfl hne
    | cons e0 es0 => simp [load_catalog, iterRecords, hp, hs]

/-- C2 witness: the mixed-state branch of the amended claim, instantiated
with a concrete two-record catalog whose embedding lengths differ. -/
theorem load_atomic_except_stack_witness :
    load_catalog st0 true (.ok (.jarr [recB1, recB2])) =
      ({ products := [pB1, pB2], matrix := st0.matrix }, .error (.failedLoad .valueErr)) :=
  load_atomic_except_stack.2.2 st0 [recB1, recB2] [pB1, pB2] [[1], [1, 2]]
    rfl rfl (by simp)

/-- C3 counterexample: a catalog holding one well-formed record and one
record that has an embedding but no `id` field makes the whole load raise
`SearchError` (from the `KeyError`), so the well-formed record is not
loaded either — refuting the claim that a malformed individual record is
always skipped locally. -/
theorem malformed_record_aborts_counterexample :
    load_catalog stA true (.ok (.jarr [recGood, recNoId])) =
      (stA, .error (.failedLoad (.keyErr "id"))) := by
  rfl

/-- C3 amended: only records whose embedding field fails the
truthy-non-empty-list test are skipped locally; a record that passes that
test but is malformed in any other way (missing `id` or `name`, a
non-numeric embedding element, or not being an object) raises, aborting
the entire load and leaving the previous generation in place — none of the
well-formed records of the same catalog get loaded. -/
theorem malformed_record_aborts_load (st : SearchState) (good : List JVal)
    (bad : JVal) (ps : List Product) (es : List (List ℚ)) (e : PyErr)
    (hgood : processAll good = .ok (ps, es)) (hbad : procRecord bad = .error e) :
    load_catalog st true (.ok (.jarr (good ++ [bad]))) = (st, .error (.failedLoad e)) := by
  have h := processAll_append_error good bad ps es e hgood hbad
  simp [load_catalog, iterRecords, h]

/-- C3 witness: one good record followed by a record missing `id`. -/
theorem malformed_record_aborts_load_witness :
    load_catalog st0 true (.ok (.jarr ([recGood] ++ [recNoId]))) =
      (st0, .error (.failedLoad (.keyErr "id"))) :=
  malformed_record_aborts_load st0 [recGood] recNoId [pGood] [[1]] (.keyErr "id")
    rfl rfl

/-- C5 counterexample: a one-record catalog whose embedding is a non-empty
but non-numeric list (so N = 1, K = 1: the record lacks a non-empty
numeric embedding sequence).  The claim requires N − K = 0 stored records
and a summary reporting 1 skipped; instead the load raises `SearchError`
(the record passes the truthiness gate and `np.array` then fails), the
previous generation's single record stays stored, and no summary exists
(`load_catalog` returns no value). -/
theorem load_summary_counterexample :
    load_catalog stA true (.ok (.jarr [recBadNum])) =
      (stA, .error (.failedLoad .valueErr)) ∧
    stA.products.length = 1 :=
  ⟨rfl, rfl⟩

/-- C5 amended: when every record is processable (kept records are objects
with `id`, `name` and an all-numeric embedding, all kept embeddings share
one length, and at least one record is kept), the load stores exactly
N − K records — K being the records failing the embedding truthiness
test — with the matrix holding one independently L2-normalized row per
kept record in catalog order.  The skipped count K is only logged:
`load_catalog` returns no summary. -/
theorem load_kept_records (st : SearchState) (items : List JVal)
    (prods : List Product) (embs : List (List ℚ))
    (hp : processAll items = .ok (prods, embs)) (hne : embs ≠ [])
    (hs : stackRows embs = some embs) :
    load_catalog st true (.ok (.jarr items)) =
      ({ products := prods, matrix := some (embs.map normalizeRow) }, .ok ()) ∧
    prods.length = embs.length ∧
    prods.length = items.length - items.countP (fun r => !keepTest r) := by
  have hc := processAll_count items prods embs hp
  refine ⟨?_, hc.1, ?_⟩
  · cases embs with
    | nil => exact absurd rfl hne
    | cons e0 es0 => simp [load_catalog, iterRecords, hp, hs]
  · have hlen := length_countP_split items
    have h2 := hc.2
    omega

/-- C5 witness: two records, one kept (embedding [1]) and one with no
embedding field: exactly 2 − 1 = 1 record is stored, with its normalized
row. -/
theorem load_kept_records_witness :
    load_catalog st0 true (.ok (.jarr [recGood, recNoEmb])) =
      ({ products := [pGood], matrix := some ([[(1 : ℚ)]].map normalizeRow) }, .ok ()) ∧
    [pGood].length =
      [recGood, recNoEmb].length - [recGood, recNoEmb].countP (fun r => !keepTest r) :=
  ⟨(load_kept_records st0 [recGood, recNoEmb] [pGood] [[1]] rfl (by simp) rfl).1,
   (load_kept_records st0 [recGood, recNoEmb] [pGood] [[1]] rfl (by simp) rfl).2.2⟩

/-- C6: for every catalog state, query, limit ≥ 1 and min_score in
[0, 1], `search_similar` returns at most `limit` results and every
returned result's unrounded score meets `min_score` (each result is the
4-decimal rounding of a score that is ≥ `min_score`); and the threshold
comparison is inclusive — in a concrete catalog whose only score is
exactly equal to `min_score = 1`, the record is returned. -/
theorem search_limit_and_threshold :
    (∀ st query limit ms, 1 ≤ limit → 0 ≤ ms → ms ≤ 1 →
      (search_similar st query limit ms).length ≤ limit ∧
      ∀ r ∈ search_similar st query limit ms, ∃ idx,
        r = (st.products.getD idx defaultProduct,
          pyRound4 ((scoresOf st query).getD idx 0)) ∧
        ms ≤ (scoresOf st query).getD idx 0) ∧
    search_similar stIncl [(1 : ℝ), 0] 5 1 = [(pIncl, 1)] := by
  constructor
  · intro st query limit ms hlim hms0 hms1
    constructor
    · cases hm : st.matrix with
      | none => simp [search_similar, hm]
      | some m =>
        simp only [search_similar, hm]
        by_cases hp : st.products.length = 0
        · rw [if_pos hp]
          simp
        · rw [if_neg hp]
          exact searchLoop_length _ _ _ _ _ _ (by simpa using hlim)
    · intro r hr
      exact search_mem_shape st query limit ms r hr
  · have h := search_single pIncl [(1 : ℝ), 0] [(1 : ℝ), 0] 5 1 1
      (l2guard_of_sumSq_one _ (by norm_num [sumSq]))
      (by norm_num [dot])
      (by norm_num)
    unfold stIncl
    rw [h, pyRound4_one]

/-- C6 witness: the bounds instantiated on the concrete one-record
catalog with limit 5 and min_score 1. -/
theorem search_limit_and_threshold_witness :
    (search_similar stIncl [(1 : ℝ), 0] 5 1).length ≤ 5 :=
  (search_limit_and_threshold.1 stIncl [(1 : ℝ), 0] 5 1 (by norm_num) (by norm_num)
    (by norm_num)).1

/-- C9: every result's `similarity_score` field is the 4-decimal banker's
rounding of the unrounded rescaled cosine score, while the `min_score`
filter compares the unrounded score; consequently a catalog whose single
score is exactly 0.12344 searched with `min_score = 0.12344` returns that
record with a reported score of 0.1234, strictly below `min_score`. -/
theorem similarity_score_rounded :
    (∀ st query limit ms r, r ∈ search_similar st query limit ms → ∃ idx,
      r = (st.products.getD idx defaultProduct,
        pyRound4 ((scoresOf st query).getD idx 0)) ∧
      ms ≤ (scoresOf st query).getD idx 0) ∧
    (search_similar stC9 [(1 : ℝ), 0] 5 (1543 / 12500) = [(pC9, 617 / 5000)] ∧
      (617 / 5000 : ℝ) < 1543 / 12500) := by
  refine ⟨?_, ?_, by norm_num⟩
  · intro st query limit ms r hr
    exact search_mem_shape st query limit ms r hr
  · have h := search_single pC9 [(-4707 / 6250 : ℝ), 0] [(1 : ℝ), 0] 5
      (1543 / 12500) (1543 / 12500)
      (l2guard_of_sumSq_one _ (by norm_num [sumSq]))
      (by norm_num [dot])
      (by norm_num)
    unfold stC9
    rw [h]
    have hp4 : pyRound4 (1543 / 12500) = 617 / 5000 := by
      have h2 := pyRound4_eval (1543 / 12500) 1234 (by norm_num) (by norm_num)
      rw [h2]
      norm_num
    rw [hp4]

/-- C9 witness: the universal shape applied to the record returned in the
rounding scenario. -/
theorem similarity_score_rounded_witness :
    ∃ idx, ((pC9, (617 / 5000 : ℝ)) : Product × ℝ) =
      (stC9.products.getD idx defaultProduct,
        pyRound4 ((scoresOf stC9 [(1 : ℝ), 0]).getD idx 0)) ∧
      (1543 / 12500 : ℝ) ≤ (scoresOf stC9 [(1 : ℝ), 0]).getD idx 0 :=
  similarity_score_rounded.1 stC9 [(1 : ℝ), 0] 5 (1543 / 12500) (pC9, 617 / 5000)
    (by rw [similarity_score_rounded.2.1]; exact List.mem_singleton_self _)

/-- C4 counterexample: the claim says a flattened model output shorter
than 512 makes `generate_embedding` raise `EmbeddingError`; in the source
(lines 170-181) no dimensionality check exists, so the two-element zero
vector is postprocessed to a normal `.ok` result of length 2. -/
theorem short_vector_not_rejected :
    generate_embedding_post [(0 : ℝ), 0] = .ok [(0 : ℝ), 0] := by
  unfold generate_embedding_post truncate512 l2guard l2norm sumSq
  norm_num [Real.sqrt_eq_zero']

/-- C4 amended: outputs longer than 512 elements are truncated to the
first 512 and shorter outputs are returned at their own length — never
padded, and never rejected with an error. -/
theorem postprocess_length (raw : List ℝ) :
    ∃ v, generate_embedding_post raw = .ok v ∧ v.length = min raw.length 512 := by
  refine ⟨l2guard (truncate512 raw), rfl, ?_⟩
  rw [l2guard_length, truncate512_length]

end VPM
